import Mathlib

/-!
Shallow embedding of the peer-to-peer blockchain synchronization core of the
Thanoos/go-ethereum fork: the sync-mode flag and its one-way SnapSync to
FullSync transition, the peer registry's best-sync-target selection, the fetch
pipeline's drop/timeout/throttle accounting, the LES discovery node filter, and
the RPC API backend.  Definitions are translated from the Go sources under
`g/`, `eth/downloader/` and `les/`; components of the repository whose
implementation is not part of the sample (the downloader internals, the
handler construction and `doSync`) are modelled from the specification, as
marked in their doc comments.
-/

namespace GoEth

/-- The `downloader.SyncMode` enumeration: FullSync, SnapSync, LightSync. -/
inductive SyncMode where
  | FullSync
  | SnapSync
  | LightSync
  deriving DecidableEq, Repr

/-- The fields of `gconfig.Config` relevant to synchronisation (from
`g/gconfig/config.go`). -/
structure Config where
  syncMode : SyncMode
  networkId : Nat
  txLookupLimit : Nat
  lightPeers : Nat
  rpcGasCap : Nat

/-- `gconfig.Defaults` (from `g/gconfig/config.go`): the default settings for
main net, with `SyncMode: downloader.SnapSync`, `NetworkId: 1`,
`TxLookupLimit: 2350000`, `LightPeers: 100`, `RPCGasCap: 50000000`. -/
def Defaults : Config :=
  { syncMode := SyncMode.SnapSync
    networkId := 1
    txLookupLimit := 2350000
    lightPeers := 100
    rpcGasCap := 50000000 }

/-- Modelled from the spec: the sync orchestrator's handler state.  The
implementation of the `g` handler is not part of the sample (only its test
`testSnapSyncDisabling` is).  `snapSync` is the process-wide atomically
readable flag (a `uint32`: 1 means snap sync enabled, 0 means disabled);
`headBlocks` is the number of blocks in the local chain beyond genesis. -/
structure Handler where
  snapSync : Nat
  headBlocks : Nat
  deriving DecidableEq, Repr

/-- Modelled from the spec: handler construction.  A node whose configured
mode is SnapSync and whose local chain is empty starts with the snap-sync
flag set; a node whose chain already has blocks never enters snap sync in
the first place. -/
def newHandler (configMode : SyncMode) (chainBlocks : Nat) : Handler :=
  { snapSync := if configMode = SyncMode.SnapSync ∧ chainBlocks = 0 then 1 else 0
    headBlocks := chainBlocks }

/-- The sync-mode flag as read by concurrent handshake goroutines: the flag
value 1 reads as SnapSync, any other value as FullSync. -/
def Handler.mode (h : Handler) : SyncMode :=
  if h.snapSync = 1 then SyncMode.SnapSync else SyncMode.FullSync

/-- A peer as tracked by the registry: stable id, advertised cumulative
difficulty and advertised chain height. -/
structure Peer where
  pid : Nat
  td : Nat
  blocks : Nat
  deriving DecidableEq, Repr

/-- A sync operation: target mode and target peer (the value object built by
`peerToSyncOp`). -/
structure SyncOp where
  mode : SyncMode
  peer : Peer
  deriving DecidableEq, Repr

/-- `peerToSyncOp` builds the sync operation from the currently active mode
and the chosen peer. -/
def peerToSyncOp (mode : SyncMode) (peer : Peer) : SyncOp :=
  { mode := mode, peer := peer }

/-- Modelled from the spec: `doSync` runs one sync operation to completion.
The implementation is not part of the sample.  On success (the target peer is
ahead, so at least one full block is imported), the local head advances and
the snap-sync flag is atomically cleared: once a real block has been fully
imported, SnapSync transitions to FullSync.  If the target is not ahead the
operation fails with an error. -/
def doSync (h : Handler) (op : SyncOp) : Except String Handler :=
  if op.peer.blocks ≤ h.headBlocks then
    Except.error "peer has nothing new to sync"
  else
    Except.ok { snapSync := 0, headBlocks := op.peer.blocks }

/-- The peer used by the snap-sync disabling scenario: a full node whose
chain already has 1024 blocks. -/
def fullPeer1024 : Peer :=
  { pid := 2, td := 1024, blocks := 1024 }

/-- Modelled from the spec: the operations that can touch or observe the
sync-mode flag during the lifetime of the process, in any interleaving of
concurrent peer handshakes and orchestrator activity. -/
inductive HandlerEvent where
  | peerHandshake
  | headAnnounce
  | syncSucceeded
  | syncFailed
  | cancel
  deriving DecidableEq, Repr

/-- Modelled from the spec: the effect of each operation on the handler.  The
only write to the snap-sync flag anywhere in the process clears it to 0 on a
successful sync (the first fully imported block); handshakes and
announcements only read it. -/
def stepHandler (h : Handler) (e : HandlerEvent) : Handler :=
  match e with
  | HandlerEvent.syncSucceeded => { h with snapSync := 0 }
  | _ => h

/-- Run a sequence of operations (one interleaving) over the handler. -/
def runEvents (h : Handler) (es : List HandlerEvent) : Handler :=
  es.foldl stepHandler h

lemma stepHandler_snapSync_ne_one (h : Handler) (e : HandlerEvent)
    (hne : h.snapSync ≠ 1) : (stepHandler h e).snapSync ≠ 1 := by
  cases e <;> simp [stepHandler] <;> exact hne

lemma runEvents_snapSync_ne_one (h : Handler) (es : List HandlerEvent)
    (hne : h.snapSync ≠ 1) : (runEvents h es).snapSync ≠ 1 := by
  induction es generalizing h with
  | nil => exact hne
  | cons e es ih =>
      simpa [runEvents, List.foldl_cons] using
        ih (stepHandler h e) (stepHandler_snapSync_ne_one h e hne)

lemma mode_eq_full_iff (h : Handler) :
    h.mode = SyncMode.FullSync ↔ h.snapSync ≠ 1 := by
  unfold Handler.mode
  by_cases hs : h.snapSync = 1 <;> simp [hs]

/-- CLAIM C1: a node starting with an empty chain (default config mode
SnapSync) initially reads SnapSync; after a successful `doSync` against a
peer whose chain already has 1024 blocks the flag reads FullSync; and a node
whose local chain already has 1024 blocks never has the SnapSync flag set in
the first place. -/
theorem snapSyncDisabling (h' : Handler)
    (hsync : doSync (newHandler Defaults.syncMode 0)
        (peerToSyncOp SyncMode.SnapSync fullPeer1024) = Except.ok h') :
    (newHandler Defaults.syncMode 0).mode = SyncMode.SnapSync ∧
      h'.mode = SyncMode.FullSync ∧
      (newHandler Defaults.syncMode 1024).mode ≠ SyncMode.SnapSync := by
  refine ⟨by decide, ?_, by decide⟩
  have : doSync (newHandler Defaults.syncMode 0)
      (peerToSyncOp SyncMode.SnapSync fullPeer1024) =
      Except.ok { snapSync := 0, headBlocks := 1024 } := by rfl
  rw [this] at hsync
  cases hsync
  decide

/-- Witness for C1: the scenario's sync succeeds concretely and the
conclusion holds at the resulting handler. -/
theorem snapSyncDisabling_witness :
    (newHandler Defaults.syncMode 0).mode = SyncMode.SnapSync ∧
      ({ snapSync := 0, headBlocks := 1024 } : Handler).mode = SyncMode.FullSync ∧
      (newHandler Defaults.syncMode 1024).mode ≠ SyncMode.SnapSync :=
  snapSyncDisabling { snapSync := 0, headBlocks := 1024 } (by rfl)

/-- CLAIM C2: once the process-wide flag has transitioned from SnapSync to
FullSync, no later read by any operation, in any interleaving of concurrent
peer handshakes, ever observes SnapSync again: if after some event sequence
the mode reads FullSync, then after any continuation it still reads
FullSync. -/
theorem syncMode_monotonic (h : Handler) (es more : List HandlerEvent)
    (htrans : (runEvents h es).mode = SyncMode.FullSync) :
    (runEvents h (es ++ more)).mode = SyncMode.FullSync := by
  have hne : (runEvents h es).snapSync ≠ 1 := (mode_eq_full_iff _).mp htrans
  have : runEvents h (es ++ more) = runEvents (runEvents h es) more := by
    simp [runEvents, List.foldl_append]
  rw [this]
  exact (mode_eq_full_iff _).mpr (runEvents_snapSync_ne_one _ more hne)

/-- Witness for C2: a pristine handler that completed one successful sync
reads FullSync for ever after, e.g. across a later handshake and
announcement. -/
theorem syncMode_monotonic_witness :
    (runEvents (newHandler SyncMode.SnapSync 0)
      ([HandlerEvent.syncSucceeded] ++
        [HandlerEvent.peerHandshake, HandlerEvent.headAnnounce])).mode =
      SyncMode.FullSync :=
  syncMode_monotonic (newHandler SyncMode.SnapSync 0)
    [HandlerEvent.syncSucceeded]
    [HandlerEvent.peerHandshake, HandlerEvent.headAnnounce] (by decide)

/-- Modelled from the spec: the peer registry.  `peers` is kept in
registration order (earliest first); `localTD` is the local chain's own
cumulative difficulty.  The registry implementation (`peerWithHighestTD`)
is not part of the sample, only its caller in `testSnapSyncDisabling`. -/
structure Registry where
  peers : List Peer
  localTD : Nat
  deriving DecidableEq, Repr

/-- Modelled from the spec: scan of the registered peers keeping the best
candidate so far; a later peer replaces the current best only when its
advertised difficulty is strictly higher, so ties are broken in favour of
the earliest-registered peer. -/
def pickBest (best : Option Peer) (l : List Peer) : Option Peer :=
  match l with
  | [] => best
  | p :: ps =>
      match best with
      | none => pickBest (some p) ps
      | some b => pickBest (if b.td < p.td then some p else some b) ps

/-- Modelled from the spec: `BestSyncTarget` returns the registered peer
with the highest advertised cumulative difficulty (ties broken by earliest
registration) or none when no registered peer's difficulty exceeds the
local chain's own difficulty. -/
def bestSyncTarget (r : Registry) : Option Peer :=
  match pickBest none r.peers with
  | none => none
  | some b => if r.localTD < b.td then some b else none

/-- Modelled from the spec: `Unregister` removes a peer by id; unknown ids
are a no-op. -/
def unregister (r : Registry) (pid : Nat) : Registry :=
  { r with peers := r.peers.filter (fun p => p.pid ≠ pid) }

lemma pickBest_some (l : List Peer) (b : Peer) :
    ∃ c, pickBest (some b) l = some c ∧ (c = b ∨ c ∈ l) ∧ b.td ≤ c.td ∧
      ∀ p ∈ l, p.td ≤ c.td := by
  induction l generalizing b with
  | nil => exact ⟨b, rfl, Or.inl rfl, le_refl _, by simp⟩
  | cons p ps ih =>
      by_cases hlt : b.td < p.td
      · obtain ⟨c, hc, hmem, hle, hall⟩ := ih p
        refine ⟨c, ?_, ?_, le_of_lt (lt_of_lt_of_le hlt hle), ?_⟩
        · simpa [pickBest, hlt] using hc
        · rcases hmem with h | h
          · exact Or.inr (by simp [h])
          · exact Or.inr (by simp [h])
        · intro q hq
          rcases List.mem_cons.mp hq with h | h
          · exact h ▸ hle
          · exact hall q h
      · obtain ⟨c, hc, hmem, hle, hall⟩ := ih b
        refine ⟨c, ?_, ?_, hle, ?_⟩
        · simpa [pickBest, hlt] using hc
        · rcases hmem with h | h
          · exact Or.inl h
          · exact Or.inr (by simp [h])
        · intro q hq
          rcases List.mem_cons.mp hq with h | h
          · exact h ▸ le_trans (le_of_not_lt hlt) hle
          · exact hall q h

lemma pickBest_first_max (l : List Peer) (b c : Peer)
    (hres : pickBest (some b) l = some c) (hne : c ≠ b) :
    ∃ l1 l2, l = l1 ++ c :: l2 ∧ (∀ p ∈ l1, p.td < c.td) ∧ b.td < c.td := by
  induction l generalizing b with
  | nil =>
      simp [pickBest] at hres
      exact absurd hres.symm hne
  | cons p ps ih =>
      by_cases hlt : b.td < p.td
      · have hres2 : pickBest (some p) ps = some c := by
          simpa [pickBest, hlt] using hres
        by_cases hcp : c = p
        · subst hcp
          exact ⟨[], ps, rfl, by simp, hlt⟩
        · obtain ⟨l1, l2, heq, hsmall, hbc⟩ := ih p hres2 hcp
          refine ⟨p :: l1, l2, by simp [heq], ?_, lt_trans hlt hbc⟩
          intro q hq
          rcases List.mem_cons.mp hq with h | h
          · exact h ▸ hbc
          · exact hsmall q h
      · have hres2 : pickBest (some b) ps = some c := by
          simpa [pickBest, hlt] using hres
        obtain ⟨l1, l2, heq, hsmall, hbc⟩ := ih b hres2 hne
        refine ⟨p :: l1, l2, by simp [heq], ?_, hbc⟩
        intro q hq
        rcases List.mem_cons.mp hq with h | h
        · exact h ▸ lt_of_le_of_lt (le_of_not_lt hlt) hbc
        · exact hsmall q h

lemma pickBest_decomp (l : List Peer) (c : Peer)
    (hres : pickBest none l = some c) :
    ∃ l1 l2, l = l1 ++ c :: l2 ∧ ∀ p ∈ l1, p.td < c.td := by
  cases l with
  | nil => simp [pickBest] at hres
  | cons p ps =>
      have hres2 : pickBest (some p) ps = some c := by
        simpa [pickBest] using hres
      by_cases hcp : c = p
      · subst hcp
        exact ⟨[], ps, rfl, by simp⟩
      · obtain ⟨l1, l2, heq, hsmall, hpc⟩ := pickBest_first_max ps p c hres2 hcp
        refine ⟨p :: l1, l2, by simp [heq], ?_⟩
        intro q hq
        rcases List.mem_cons.mp hq with h | h
        · exact h ▸ hpc
        · exact hsmall q h

lemma pickBest_max (l : List Peer) (c : Peer)
    (hres : pickBest none l = some c) : ∀ p ∈ l, p.td ≤ c.td := by
  cases l with
  | nil => simp [pickBest] at hres
  | cons p ps =>
      have hres2 : pickBest (some p) ps = some c := by
        simpa [pickBest] using hres
      obtain ⟨d, hd, _, hle, hall⟩ := pickBest_some ps p
      rw [hres2] at hd
      cases hd
      intro q hq
      rcases List.mem_cons.mp hq with h | h
      · exact h ▸ hle
      · exact hall q h

lemma pickBest_none_iff (l : List Peer) : pickBest none l = none ↔ l = [] := by
  cases l with
  | nil => simp [pickBest]
  | cons p ps =>
      simp only [pickBest]
      obtain ⟨c, hc, _, _, _⟩ := pickBest_some ps p
      simp [hc]

/-- The registry of the two-peer scenario: peer 1 with difficulty 10
registered first, peer 2 with difficulty 20 registered second, local chain
difficulty 0. -/
def scenarioRegistry : Registry :=
  { peers := [{ pid := 1, td := 10, blocks := 10 },
              { pid := 2, td := 20, blocks := 20 }]
    localTD := 0 }

/-- CLAIM C3: `bestSyncTarget` returns a registered peer of maximal
advertised difficulty exceeding the local difficulty, all peers registered
strictly earlier have strictly smaller difficulty (earliest-registration
tie-break), it returns none exactly when no registered peer's difficulty
exceeds the local chain's own; and in the two-peer scenario with
difficulties 10 < 20 it returns peer 2, then after peer 2 unregisters it
returns peer 1. -/
theorem bestSyncTarget_spec (r : Registry) :
    (∀ c, bestSyncTarget r = some c →
      r.localTD < c.td ∧ (∀ p ∈ r.peers, p.td ≤ c.td) ∧
        ∃ l1 l2, r.peers = l1 ++ c :: l2 ∧ ∀ p ∈ l1, p.td < c.td) ∧
    (bestSyncTarget r = none ↔ ∀ p ∈ r.peers, p.td ≤ r.localTD) ∧
    (bestSyncTarget scenarioRegistry = some { pid := 2, td := 20, blocks := 20 } ∧
      bestSyncTarget (unregister scenarioRegistry 2) =
        some { pid := 1, td := 10, blocks := 10 }) := by
  refine ⟨?_, ?_, by constructor <;> rfl⟩
  · intro c hc
    unfold bestSyncTarget at hc
    cases hpb : pickBest none r.peers with
    | none => rw [hpb] at hc; simp at hc
    | some b =>
        simp only [hpb] at hc
        by_cases hloc : r.localTD < b.td
        · rw [if_pos hloc] at hc
          cases hc
          exact ⟨hloc, pickBest_max _ _ hpb, pickBest_decomp _ _ hpb⟩
        · rw [if_neg hloc] at hc
          exact absurd hc (by simp)
  · unfold bestSyncTarget
    cases hpb : pickBest none r.peers with
    | none =>
        have : r.peers = [] := (pickBest_none_iff _).mp hpb
        simp [this]
    | some b =>
        by_cases hloc : r.localTD < b.td
        · simp only [if_pos hloc]
          constructor
          · intro h; exact absurd h (by simp)
          · intro hall
            obtain ⟨l1, l2, heq, _⟩ := pickBest_decomp _ _ hpb
            have : b ∈ r.peers := by
              rw [heq]; exact List.mem_append_right _ (List.mem_cons_self _ _)
            exact absurd hloc (not_lt.mpr (hall b this))
        · simp only [if_neg hloc]
          constructor
          · intro _ p hp
            exact le_trans (pickBest_max _ _ hpb p hp) (not_lt.mp hloc)
          · intro _; trivial

/-- Witness for C3: instantiating the characterisation at the concrete
scenario registry yields the concrete best target facts. -/
theorem bestSyncTarget_spec_witness :
    bestSyncTarget scenarioRegistry = some { pid := 2, td := 20, blocks := 20 } ∧
      bestSyncTarget (unregister scenarioRegistry 2) =
        some { pid := 1, td := 10, blocks := 10 } :=
  (bestSyncTarget_spec scenarioRegistry).2.2

/-- The three request kinds of the fetch pipeline, matching the per-kind
meters of `eth/downloader/metrics.go`: headers, bodies, receipts. -/
inductive Kind where
  | headers
  | bodies
  | receipts
  deriving DecidableEq, Repr

/-- The states of the sync orchestrator's state machine. -/
inductive OpState where
  | Idle
  | Selecting
  | Fetching
  | Importing
  | Cancelled
  | Failed
  deriving DecidableEq, Repr

/-- An outstanding fetch request: kind, target peer, correlation id of the
requested payload, and deadline. -/
structure Request where
  kind : Kind
  peer : Nat
  reqId : Nat
  deadline : Nat
  deriving DecidableEq, Repr

/-- An incoming response: kind, origin peer, and correlation id of the
delivered payload. -/
structure Response where
  kind : Kind
  peer : Nat
  reqId : Nat
  deriving DecidableEq, Repr

/-- A response matches an outstanding request by kind, peer and payload
correlation id. -/
def respMatches (q : Request) (resp : Response) : Bool :=
  q.kind == resp.kind && q.peer == resp.peer && q.reqId == resp.reqId

/-- Modelled from the spec: the downloader's per-operation bookkeeping: the
in-flight request table, the per-kind in/drop/timeout meters and the
throttle counter of `eth/downloader/metrics.go`, per-peer reliability
penalties, the connected peer set, the orchestrator state and the queue of
throttled requests. -/
structure DLState where
  outstanding : List Request
  inMeter : Kind → Nat
  dropMeter : Kind → Nat
  timeoutMeter : Kind → Nat
  throttleCounter : Nat
  penalties : Nat → Nat
  connected : List Nat
  opState : OpState
  queued : List Request

/-- Increment the counter of one kind, leaving the other kinds unchanged. -/
def bumpK (f : Kind → Nat) (k : Kind) : Kind → Nat :=
  fun j => if j = k then f j + 1 else f j

/-- Modelled from the spec: response resolution in the fetch pipeline.  A
response matching an outstanding request resolves it and is counted on the
in meter of its kind; a response with no matching outstanding request
(duplicate, stale, or unsolicited) is counted on the drop meter of its kind
and silently discarded, with no other effect. -/
def deliver (s : DLState) (resp : Response) : DLState :=
  if s.outstanding.any (fun q => respMatches q resp) then
    { s with
      outstanding := s.outstanding.filter (fun q => !respMatches q resp)
      inMeter := bumpK s.inMeter resp.kind }
  else
    { s with dropMeter := bumpK s.dropMeter resp.kind }

/-- The peers eligible for a retry of a timed-out request: connected peers
other than the one that timed out. -/
def eligibleRetryPeers (s : DLState) (req : Request) : List Nat :=
  s.connected.filter (fun p => p ≠ req.peer)

/-- Modelled from the spec: expiry handling for a fetch request whose
deadline has elapsed with no response.  The timeout meter of the kind is
incremented once, the peer's reliability is penalised, and the same data is
re-requested once from a different eligible peer if one exists; if none
exists the request is shelved and the operation stays in its current state
(Fetching, not Failed) until a peer appears or the operation is
cancelled. -/
def handleTimeout (s : DLState) (req : Request) (now : Nat) : DLState :=
  if now < req.deadline then s
  else
    { s with
      timeoutMeter := bumpK s.timeoutMeter req.kind
      penalties := fun p => if p = req.peer then s.penalties p + 1 else s.penalties p
      outstanding :=
        s.outstanding.filter (fun q => q.reqId != req.reqId) ++
          ((eligibleRetryPeers s req).head?.map
            (fun p => { req with peer := p })).toList }

/-- The number of in-flight requests of one kind. -/
def inflightCount (s : DLState) (k : Kind) : Nat :=
  (s.outstanding.filter (fun q => q.kind == k)).length

/-- Modelled from the spec: dispatch of a new fetch request under the
configured concurrency ceiling.  When the number of in-flight requests of
the kind would exceed the ceiling, the throttle counter is incremented and
the extra request is queued rather than dispatched; otherwise the request
joins the in-flight table. -/
def dispatch (s : DLState) (ceiling : Nat) (req : Request) : DLState :=
  if ceiling < inflightCount s req.kind + 1 then
    { s with
      throttleCounter := s.throttleCounter + 1
      queued := s.queued ++ [req] }
  else
    { s with outstanding := s.outstanding ++ [req] }

/-- The metric name of the in meter of a kind, as registered in
`eth/downloader/metrics.go`. -/
def inMeterName : Kind → String
  | Kind.headers => "g/downloader/headers/in"
  | Kind.bodies => "g/downloader/bodies/in"
  | Kind.receipts => "g/downloader/receipts/in"

/-- The metric name of the drop meter of a kind, as registered in
`eth/downloader/metrics.go`. -/
def dropMeterName : Kind → String
  | Kind.headers => "g/downloader/headers/drop"
  | Kind.bodies => "g/downloader/bodies/drop"
  | Kind.receipts => "g/downloader/receipts/drop"

/-- The metric name of the timeout meter of a kind, as registered in
`eth/downloader/metrics.go`. -/
def timeoutMeterName : Kind → String
  | Kind.headers => "g/downloader/headers/timeout"
  | Kind.bodies => "g/downloader/bodies/timeout"
  | Kind.receipts => "g/downloader/receipts/timeout"

/-- The meter names registered by `eth/downloader/metrics.go`, in source
order. -/
def registeredMeterNames : List String :=
  ["g/downloader/headers/in", "g/downloader/headers/req",
   "g/downloader/headers/drop", "g/downloader/headers/timeout",
   "g/downloader/bodies/in", "g/downloader/bodies/req",
   "g/downloader/bodies/drop", "g/downloader/bodies/timeout",
   "g/downloader/receipts/in", "g/downloader/receipts/req",
   "g/downloader/receipts/drop", "g/downloader/receipts/timeout"]

/-- The counter names registered by `eth/downloader/metrics.go`. -/
def registeredCounterNames : List String :=
  ["g/downloader/throttle"]

/-- A concrete pipeline state used by the witnesses: one outstanding header
request against peer 7, peers 7 and 8 connected, operation Fetching. -/
def sampleState : DLState :=
  { outstanding := [{ kind := Kind.headers, peer := 7, reqId := 1, deadline := 5 }]
    inMeter := fun _ => 0
    dropMeter := fun _ => 0
    timeoutMeter := fun _ => 0
    throttleCounter := 0
    penalties := fun _ => 0
    connected := [7, 8]
    opState := OpState.Fetching
    queued := [] }

/-- A concrete response matching no outstanding request of
`sampleState`. -/
def staleResponse : Response :=
  { kind := Kind.headers, peer := 9, reqId := 99 }

/-- CLAIM C4: a response matching no outstanding request is counted once on
the drop meter of its kind and silently discarded: the other drop meters,
the in-flight table, the in meters, the peer penalties, the connected peer
set and the operation state are all unchanged, so it never causes a peer
penalty, a disconnect, or failure of the sync operation. -/
theorem unmatchedResponse_dropped (s : DLState) (resp : Response)
    (hnone : ∀ q ∈ s.outstanding, respMatches q resp = false) :
    (deliver s resp).dropMeter resp.kind = s.dropMeter resp.kind + 1 ∧
      (∀ k, k ≠ resp.kind → (deliver s resp).dropMeter k = s.dropMeter k) ∧
      (deliver s resp).penalties = s.penalties ∧
      (deliver s resp).connected = s.connected ∧
      (deliver s resp).opState = s.opState ∧
      (deliver s resp).outstanding = s.outstanding ∧
      (deliver s resp).inMeter = s.inMeter := by
  have hany : s.outstanding.any (fun q => respMatches q resp) = false := by
    rw [List.any_eq_false]
    intro q hq
    simp [hnone q hq]
  simp only [deliver, hany, Bool.false_eq_true, if_false]
  refine ⟨by simp [bumpK], ?_, trivial, trivial, trivial, trivial, trivial⟩
  intro k hk
  simp [bumpK, hk]

/-- Witness for C4: delivering the concrete stale response to the concrete
sample state increments exactly the header drop meter and changes nothing
else. -/
theorem unmatchedResponse_dropped_witness :
    (deliver sampleState staleResponse).dropMeter staleResponse.kind =
        sampleState.dropMeter staleResponse.kind + 1 ∧
      (∀ k, k ≠ staleResponse.kind →
        (deliver sampleState staleResponse).dropMeter k =
          sampleState.dropMeter k) ∧
      (deliver sampleState staleResponse).penalties = sampleState.penalties ∧
      (deliver sampleState staleResponse).connected = sampleState.connected ∧
      (deliver sampleState staleResponse).opState = sampleState.opState ∧
      (deliver sampleState staleResponse).outstanding = sampleState.outstanding ∧
      (deliver sampleState staleResponse).inMeter = sampleState.inMeter :=
  unmatchedResponse_dropped sampleState staleResponse (by decide)

lemma filter_ne_filter_eq (l : List Request) (rid : Nat) :
    (l.filter (fun q => q.reqId != rid)).filter (fun q => q.reqId == rid) = [] := by
  rw [List.filter_eq_nil_iff]
  intro q hq
  have := (List.mem_filter.mp hq).2
  simp only [bne_iff_ne, ne_eq, decide_not] at this
  simp [this]

/-- CLAIM C5: when a request's deadline elapses with no response, the
timeout meter of its kind is incremented exactly once (other kinds
untouched); exactly one retry of the same payload is dispatched, against a
different connected peer, when an eligible peer exists; when none exists no
retry is dispatched and the operation remains Fetching, never Failed. -/
theorem requestTimeout_spec (s : DLState) (req : Request) (now : Nat)
    (hdl : req.deadline ≤ now) (hfetch : s.opState = OpState.Fetching) :
    (handleTimeout s req now).timeoutMeter req.kind =
        s.timeoutMeter req.kind + 1 ∧
      (∀ k, k ≠ req.kind →
        (handleTimeout s req now).timeoutMeter k = s.timeoutMeter k) ∧
      (eligibleRetryPeers s req ≠ [] →
        ((handleTimeout s req now).outstanding.filter
            (fun q => q.reqId == req.reqId)).length = 1 ∧
          ∀ q ∈ (handleTimeout s req now).outstanding, q.reqId = req.reqId →
            q.peer ≠ req.peer ∧ q.peer ∈ s.connected) ∧
      (eligibleRetryPeers s req = [] →
        ((handleTimeout s req now).outstanding.filter
            (fun q => q.reqId == req.reqId)).length = 0) ∧
      (handleTimeout s req now).opState = OpState.Fetching ∧
      (handleTimeout s req now).opState ≠ OpState.Failed := by
  have hnl : ¬ now < req.deadline := not_lt.mpr hdl
  refine ⟨?_, ?_, ?_, ?_, ?_, ?_⟩
  · simp [handleTimeout, hnl, bumpK]
  · intro k hk
    simp [handleTimeout, hnl, bumpK, hk]
  · intro helig
    cases hhd : (eligibleRetryPeers s req).head? with
    | none => exact absurd (List.head?_eq_none_iff.mp hhd) helig
    | some p =>
        have hpmem : p ∈ eligibleRetryPeers s req := List.mem_of_mem_head? hhd
        have hpconn : p ∈ s.connected := (List.mem_filter.mp hpmem).1
        have hpne : p ≠ req.peer := by
          have := (List.mem_filter.mp hpmem).2
          simpa using this
        constructor
        · simp only [handleTimeout, if_neg hnl, hhd, Option.map_some,
            Option.toList_some, List.filter_append, filter_ne_filter_eq]
          simp
        · intro q hq hqid
          simp only [handleTimeout, if_neg hnl, hhd, Option.map_some,
            Option.toList_some, List.mem_append] at hq
          rcases hq with hq | hq
          · have := (List.mem_filter.mp hq).2
            simp only [bne_iff_ne, ne_eq, decide_not] at this
            simp [hqid] at this
          · have hqe : q = { req with peer := p } := by simpa using hq
            subst hqe
            exact ⟨hpne, hpconn⟩
  · intro helig
    have hhd : (eligibleRetryPeers s req).head? = none :=
      List.head?_eq_none_iff.mpr helig
    simp [handleTimeout, if_neg hnl, hhd, filter_ne_filter_eq]
  · simp [handleTimeout, hnl, hfetch]
  · simp [handleTimeout, hnl, hfetch]

/-- A concrete header request of `sampleState` whose deadline 5 has elapsed
by time 10. -/
def expiredReq : Request :=
  { kind := Kind.headers, peer := 7, reqId := 1, deadline := 5 }

/-- Witness for C5: at the concrete sample state, the expired header
request bumps the header timeout meter once and is retried exactly once
against the other connected peer, with the operation still Fetching. -/
theorem requestTimeout_spec_witness :
    (handleTimeout sampleState expiredReq 10).timeoutMeter expiredReq.kind =
        sampleState.timeoutMeter expiredReq.kind + 1 ∧
      (∀ k, k ≠ expiredReq.kind →
        (handleTimeout sampleState expiredReq 10).timeoutMeter k =
          sampleState.timeoutMeter k) ∧
      (eligibleRetryPeers sampleState expiredReq ≠ [] →
        ((handleTimeout sampleState expiredReq 10).outstanding.filter
            (fun q => q.reqId == expiredReq.reqId)).length = 1 ∧
          ∀ q ∈ (handleTimeout sampleState expiredReq 10).outstanding,
            q.reqId = expiredReq.reqId →
              q.peer ≠ expiredReq.peer ∧ q.peer ∈ sampleState.connected) ∧
      (eligibleRetryPeers sampleState expiredReq = [] →
        ((handleTimeout sampleState expiredReq 10).outstanding.filter
            (fun q => q.reqId == expiredReq.reqId)).length = 0) ∧
      (handleTimeout sampleState expiredReq 10).opState = OpState.Fetching ∧
      (handleTimeout sampleState expiredReq 10).opState ≠ OpState.Failed :=
  requestTimeout_spec sampleState expiredReq 10 (by decide) (by decide)

/-- CLAIM C6: the metrics component keeps separate per-kind in, drop and
timeout counters (the per-kind meters of `eth/downloader/metrics.go`, with
pairwise distinct registered names, plus the throttle counter), and the
throttle counter is incremented exactly when the number of in-flight
requests of a kind would exceed the configured ceiling, in which case the
extra request is queued rather than dispatched. -/
theorem throttling_spec (s : DLState) (ceiling : Nat) (req : Request) :
    ((dispatch s ceiling req).throttleCounter = s.throttleCounter + 1 ↔
        ceiling < inflightCount s req.kind + 1) ∧
      (ceiling < inflightCount s req.kind + 1 →
        (dispatch s ceiling req).queued = s.queued ++ [req] ∧
          (dispatch s ceiling req).outstanding = s.outstanding) ∧
      (¬ ceiling < inflightCount s req.kind + 1 →
        (dispatch s ceiling req).throttleCounter = s.throttleCounter ∧
          (dispatch s ceiling req).outstanding = s.outstanding ++ [req] ∧
          (dispatch s ceiling req).queued = s.queued) ∧
      (∀ k, inMeterName k ∈ registeredMeterNames ∧
        dropMeterName k ∈ registeredMeterNames ∧
        timeoutMeterName k ∈ registeredMeterNames) ∧
      registeredMeterNames.Nodup ∧
      "g/downloader/throttle" ∈ registeredCounterNames := by
  refine ⟨?_, ?_, ?_, ?_, by decide, by decide⟩
  · by_cases h : ceiling < inflightCount s req.kind + 1
    · simp [dispatch, h]
    · simp [dispatch, h]
  · intro h
    simp [dispatch, h]
  · intro h
    simp [dispatch, h]
  · intro k
    cases k <;> exact ⟨by decide, by decide, by decide⟩

/-- Witness for C6: dispatching a second header request over a ceiling of 1
at the concrete sample state increments the throttle counter. -/
theorem throttling_spec_witness :
    (dispatch sampleState 1 expiredReq).throttleCounter =
      sampleState.throttleCounter + 1 :=
  ((throttling_spec sampleState 1 expiredReq).1).mpr (by decide)

/-- A fork identifier: a compact descriptor {checksum hash of known fork
points, next fork number} exchanged at handshake. -/
structure ForkID where
  hash : Nat
  next : Nat
  deriving DecidableEq, Repr

/-- The "les" ENR entry (`lesEntry` in `les/enr_entry.go`), set for LES
servers only. -/
structure LesEntry where
  vfxVersion : Nat
  deriving DecidableEq, Repr

/-- The "g" ENR entry (`gEntry` in `les/enr_entry.go`), carrying the
node's advertised fork ID. -/
structure GEntry where
  forkID : ForkID
  deriving DecidableEq, Repr

/-- A discovered node record: `n.Load(&les)` and `n.Load(&g)` return a nil
error exactly when the corresponding ENR entry is present and decodable,
modelled as an `Option`. -/
structure ENode where
  lesEntry : Option LesEntry
  gEntry : Option GEntry
  deriving DecidableEq, Repr

/-- `nodeIsServer` from `les/enr_entry.go`: a node is an LES server
candidate exactly when loading both the "les" and "g" ENR entries
succeeds and the local fork filter accepts the node's advertised fork ID
(returns a nil error, modelled as `none`). -/
def nodeIsServer (forkFilter : ForkID → Option String) (n : ENode) : Bool :=
  match n.lesEntry, n.gEntry with
  | some _, some g => (forkFilter g.forkID).isNone
  | _, _ => false

/-- `setupDiscovery` from `les/enr_entry.go`: the candidate iterator is the
mixed discovery source filtered through `nodeIsServer`, so incompatible
nodes never reach the consumer of the iterator. -/
def setupDiscovery (forkFilter : ForkID → Option String)
    (src : List ENode) : List ENode :=
  src.filter (fun n => nodeIsServer forkFilter n)

/-- CLAIM C7: `nodeIsServer` returns true exactly when the node carries
both the "les" and "g" ENR entries and the local fork filter accepts the
advertised fork ID; the discovery iterator yields exactly the nodes
passing this check, so any node failing it is rejected before any request
is sent. -/
theorem nodeIsServer_spec (forkFilter : ForkID → Option String) (n : ENode)
    (src : List ENode) :
    (nodeIsServer forkFilter n = true ↔
      (∃ les, n.lesEntry = some les) ∧
        ∃ g, n.gEntry = some g ∧ forkFilter g.forkID = none) ∧
      (∀ m ∈ setupDiscovery forkFilter src, nodeIsServer forkFilter m = true) ∧
      (∀ m ∈ src, nodeIsServer forkFilter m = true →
        m ∈ setupDiscovery forkFilter src) := by
  refine ⟨?_, ?_, ?_⟩
  · cases hles : n.lesEntry with
    | none => simp [nodeIsServer, hles]
    | some les =>
        cases hg : n.gEntry with
        | none => simp [nodeIsServer, hles, hg]
        | some g =>
            simp [nodeIsServer, hles, hg, Option.isNone_iff_eq_none]
  · intro m hm
    exact (List.mem_filter.mp hm).2
  · intro m hm hsrv
    exact List.mem_filter.mpr ⟨hm, hsrv⟩

/-- A fork filter accepting every advertised fork ID. -/
def acceptAllFilter : ForkID → Option String := fun _ => none

/-- A concrete node carrying both ENR entries. -/
def serverNode : ENode :=
  { lesEntry := some { vfxVersion := 0 }
    gEntry := some { forkID := { hash := 1, next := 0 } } }

/-- Witness for C7: the concrete node with both entries and an accepting
filter passes the check and survives the discovery filter. -/
theorem nodeIsServer_spec_witness :
    nodeIsServer acceptAllFilter serverNode = true ∧
      serverNode ∈ setupDiscovery acceptAllFilter [serverNode] :=
  ⟨((nodeIsServer_spec acceptAllFilter serverNode [serverNode]).1).mpr
      ⟨⟨{ vfxVersion := 0 }, rfl⟩, { forkID := { hash := 1, next := 0 } }, rfl, rfl⟩,
    ((nodeIsServer_spec acceptAllFilter serverNode [serverNode]).2.2 serverNode
      (by simp) (by decide))⟩

/-- A block header, carrying its number. -/
structure Header where
  number : Nat
  deriving DecidableEq, Repr

/-- A block; `header` is what `block.Header()` returns. -/
structure Block where
  header : Header
  deriving DecidableEq, Repr

/-- The sync progress record {highestBlock, currentBlock, pulledStates,
knownStates} reported to the RPC "syncing" query. -/
structure SyncProgressRec where
  highestBlock : Nat
  currentBlock : Nat
  pulledStates : Nat
  knownStates : Nat
  deriving DecidableEq, Repr

/-- Modelled from the spec: the downloader's externally visible status: the
sync statistics behind `Progress` and the cancellation flag behind
`Cancel`.  The downloader implementation is not part of the sample, only
its metric registrations and its callers in `g/api_backend.go`. -/
structure Downloader where
  highestBlock : Nat
  currentBlock : Nat
  pulledStates : Nat
  knownStates : Nat
  cancelled : Bool
  deriving DecidableEq, Repr

/-- Modelled from the spec: `Progress` returns the sync progress record
{highestBlock, currentBlock, pulledStates, knownStates} for external
status reporting. -/
def Downloader.Progress (d : Downloader) : SyncProgressRec :=
  { highestBlock := d.highestBlock
    currentBlock := d.currentBlock
    pulledStates := d.pulledStates
    knownStates := d.knownStates }

/-- Modelled from the spec: `Cancel` aborts any in-flight sync operation;
idempotent when nothing is in flight. -/
def Downloader.Cancel (d : Downloader) : Downloader :=
  { d with cancelled := true }

/-- The blockchain collaborator as consumed by `g/api_backend.go`:
current, finalized and safe blocks, header lookup by number, and the
current head number. -/
structure Blockchain where
  currentBlock : Block
  finalizedBlock : Option Block
  safeBlock : Option Block
  headerOf : Nat → Option Header
  headNumber : Nat

/-- The miner collaborator: the pending block it alone knows. -/
structure Miner where
  pendingBlock : Block

/-- The `Ethereum` service as reached through the backend's `g` field:
downloader (via the handler), blockchain and miner. -/
structure Ethereum where
  downloader : Downloader
  blockchain : Blockchain
  miner : Miner

/-- `EthAPIBackend` from `g/api_backend.go`. -/
structure EthAPIBackend where
  extRPCEnabled : Bool
  allowUnprotectedTxs : Bool
  g : Ethereum

/-- `Ethereum.Downloader` accessor used by `SyncProgress`. -/
def Ethereum.Downloader (e : Ethereum) : Downloader :=
  e.downloader

/-- `EthAPIBackend.SyncProgress` from `g/api_backend.go`: returns
`b.g.Downloader().Progress()`. -/
def EthAPIBackend.SyncProgress (b : EthAPIBackend) : SyncProgressRec :=
  b.g.Downloader.Progress

/-- CLAIM C8: the subsystem exposes a `Progress` operation returning the
record {highestBlock, currentBlock, pulledStates, knownStates}, and the
RPC backend's `SyncProgress` query returns exactly the downloader's
current `Progress` value, field for field. -/
theorem syncProgress_spec (b : EthAPIBackend) :
    b.SyncProgress = b.g.downloader.Progress ∧
      b.SyncProgress.highestBlock = b.g.downloader.highestBlock ∧
      b.SyncProgress.currentBlock = b.g.downloader.currentBlock ∧
      b.SyncProgress.pulledStates = b.g.downloader.pulledStates ∧
      b.SyncProgress.knownStates = b.g.downloader.knownStates :=
  ⟨rfl, rfl, rfl, rfl, rfl⟩

/-- The collaborator calls issued by the backend, in program order. -/
inductive BackendCall where
  | downloaderCancel
  | chainSetHead (n : Nat)
  deriving DecidableEq, Repr

/-- `EthAPIBackend.SetHead` from `g/api_backend.go` issues exactly these
collaborator calls in this order: `b.g.handler.downloader.Cancel()` then
`b.g.blockchain.SetHead(number)`. -/
def setHeadCalls (number : Nat) : List BackendCall :=
  [BackendCall.downloaderCancel, BackendCall.chainSetHead number]

/-- The effect of each collaborator call on the service state: cancelling
marks the in-flight sync operation aborted; the chain rewind moves the
head to the requested number. -/
def applyCall (e : Ethereum) (c : BackendCall) : Ethereum :=
  match c with
  | BackendCall.downloaderCancel => { e with downloader := e.downloader.Cancel }
  | BackendCall.chainSetHead n =>
      { e with blockchain := { e.blockchain with headNumber := n } }

/-- `EthAPIBackend.SetHead`: the backend state after issuing the calls of
`setHeadCalls` in order. -/
def EthAPIBackend.SetHead (b : EthAPIBackend) (number : Nat) : EthAPIBackend :=
  { b with g := (setHeadCalls number).foldl applyCall b.g }

/-- CLAIM C9: `SetHead(n)` issues the chain rewind, and every call issued
before it includes the downloader cancellation, so at the moment the chain
head is rewound the in-flight sync operation has already been cancelled;
afterwards the head reads n and the downloader is cancelled. -/
theorem setHead_cancel_before_rewind (b : EthAPIBackend) (number : Nat) :
    (∃ pre post, setHeadCalls number = pre ++ BackendCall.chainSetHead number :: post ∧
      BackendCall.downloaderCancel ∈ pre ∧
      (pre.foldl applyCall b.g).downloader.cancelled = true) ∧
      (b.SetHead number).g.blockchain.headNumber = number ∧
      (b.SetHead number).g.downloader.cancelled = true := by
  refine ⟨⟨[BackendCall.downloaderCancel], [], rfl, by simp, rfl⟩, rfl, rfl⟩

/-- The sentinel block numbers of `rpc.BlockNumber`. -/
def PendingBlockNumber : Int := -2

/-- The `rpc.LatestBlockNumber` sentinel. -/
def LatestBlockNumber : Int := -1

/-- The `rpc.FinalizedBlockNumber` sentinel. -/
def FinalizedBlockNumber : Int := -3

/-- The `rpc.SafeBlockNumber` sentinel. -/
def SafeBlockNumber : Int := -4

/-- The Go `uint64(number)` conversion of the signed block number. -/
def toUint64 (n : Int) : Nat :=
  (n % (2 ^ 64)).toNat

/-- `EthAPIBackend.HeaderByNumber` from `g/api_backend.go`: pending and
latest resolve through the miner and the current block with a nil error;
finalized and safe error out when the corresponding block does not exist;
every other number is looked up by `GetHeaderByNumber` with a nil error
and a possibly missing header. -/
def EthAPIBackend.HeaderByNumber (b : EthAPIBackend) (number : Int) :
    Except String (Option Header) :=
  if number = PendingBlockNumber then
    Except.ok (some b.g.miner.pendingBlock.header)
  else if number = LatestBlockNumber then
    Except.ok (some b.g.blockchain.currentBlock.header)
  else if number = FinalizedBlockNumber then
    match b.g.blockchain.finalizedBlock with
    | some block => Except.ok (some block.header)
    | none => Except.error "finalized block not found"
  else if number = SafeBlockNumber then
    match b.g.blockchain.safeBlock with
    | some block => Except.ok (some block.header)
    | none => Except.error "safe block not found"
  else
    Except.ok (b.g.blockchain.headerOf (toUint64 number))

/-- CLAIM C10: `HeaderByNumber` returns an error exactly when the number
is FinalizedBlockNumber with no finalized block, or SafeBlockNumber with
no safe block; in particular every ordinary (non-negative) number returns
a nil error with the possibly missing header from the number lookup. -/
theorem headerByNumber_error_cases (b : EthAPIBackend) (number : Int) :
    ((∃ e, b.HeaderByNumber number = Except.error e) ↔
      (number = FinalizedBlockNumber ∧ b.g.blockchain.finalizedBlock = none) ∨
        (number = SafeBlockNumber ∧ b.g.blockchain.safeBlock = none)) ∧
      (0 ≤ number →
        b.HeaderByNumber number =
          Except.ok (b.g.blockchain.headerOf (toUint64 number))) := by
  constructor
  · by_cases hp : number = PendingBlockNumber
    · simp [EthAPIBackend.HeaderByNumber, hp, PendingBlockNumber,
        LatestBlockNumber, FinalizedBlockNumber, SafeBlockNumber]
    · by_cases hl : number = LatestBlockNumber
      · simp [EthAPIBackend.HeaderByNumber, hp, hl, PendingBlockNumber,
          LatestBlockNumber, FinalizedBlockNumber, SafeBlockNumber]
      · by_cases hf : number = FinalizedBlockNumber
        · cases hfin : b.g.blockchain.finalizedBlock with
          | none =>
              simp [EthAPIBackend.HeaderByNumber, hp, hl, hf, hfin,
                PendingBlockNumber, LatestBlockNumber, FinalizedBlockNumber,
                SafeBlockNumber]
          | some block =>
              simp [EthAPIBackend.HeaderByNumber, hp, hl, hf, hfin,
                PendingBlockNumber, LatestBlockNumber, FinalizedBlockNumber,
                SafeBlockNumber]
        · by_cases hs : number = SafeBlockNumber
          · cases hsafe : b.g.blockchain.safeBlock with
            | none =>
                simp [EthAPIBackend.HeaderByNumber, hp, hl, hf, hs, hsafe,
                  PendingBlockNumber, LatestBlockNumber, FinalizedBlockNumber,
                  SafeBlockNumber]
            | some block =>
                simp [EthAPIBackend.HeaderByNumber, hp, hl, hf, hs, hsafe,
                  PendingBlockNumber, LatestBlockNumber, FinalizedBlockNumber,
                  SafeBlockNumber]
          · simp [EthAPIBackend.HeaderByNumber, hp, hl, hf, hs]
  · intro hpos
    have hp : number ≠ PendingBlockNumber := by
      intro h; rw [h] at hpos; exact absurd hpos (by decide)
    have hl : number ≠ LatestBlockNumber := by
      intro h; rw [h] at hpos; exact absurd hpos (by decide)
    have hf : number ≠ FinalizedBlockNumber := by
      intro h; rw [h] at hpos; exact absurd hpos (by decide)
    have hs : number ≠ SafeBlockNumber := by
      intro h; rw [h] at hpos; exact absurd hpos (by decide)
    simp [EthAPIBackend.HeaderByNumber, hp, hl, hf, hs]

/-- A concrete backend whose chain has no finalized and no safe block. -/
def sampleBackend : EthAPIBackend :=
  { extRPCEnabled := false
    allowUnprotectedTxs := false
    g := { downloader :=
            { highestBlock := 1024, currentBlock := 512,
              pulledStates := 7, knownStates := 9, cancelled := false }
           blockchain :=
            { currentBlock := { header := { number := 512 } }
              finalizedBlock := none
              safeBlock := none
              headerOf := fun n => if n ≤ 512 then some { number := n } else none
              headNumber := 512 }
           miner := { pendingBlock := { header := { number := 513 } } } } }

/-- Witness for C10: at the concrete backend with no finalized block, the
finalized query errors and block 3 resolves with a nil error. -/
theorem headerByNumber_error_cases_witness :
    ((∃ e, sampleBackend.HeaderByNumber FinalizedBlockNumber = Except.error e) ↔
      (FinalizedBlockNumber = FinalizedBlockNumber ∧
          sampleBackend.g.blockchain.finalizedBlock = none) ∨
        (FinalizedBlockNumber = SafeBlockNumber ∧
          sampleBackend.g.blockchain.safeBlock = none)) ∧
      (0 ≤ (3 : Int) →
        sampleBackend.HeaderByNumber 3 =
          Except.ok (sampleBackend.g.blockchain.headerOf (toUint64 3))) :=
  ⟨(headerByNumber_error_cases sampleBackend FinalizedBlockNumber).1,
    (headerByNumber_error_cases sampleBackend 3).2⟩

end GoEth
